import Mathlib

/-!
Shallow embedding of the places-gateway request dispatcher
(`src/api/places.ts`): the bounded TTL cache, cache-key derivation,
identifier normalization, the field-mask fallback retry, the batch
fan-out, and the dispatcher's validation/authentication order.
Machine time (`Date.now()`) is passed explicitly as a `Nat` of
milliseconds; outbound HTTP is modelled by an oracle giving the
upstream response to the n-th call issued for a given place id.
-/

namespace Gateway

/-- Opaque JSON payload decoded from an upstream 2xx response. -/
abbrev Payload := String

/-! ### TTL cache (`places.ts` lines 5-18)

`CACHE` is a JS `Map`, which iterates in insertion order and keeps an
existing key's position on `set`.  We model it as an association list
in insertion order: `set` on a present key updates in place, on an
absent key appends at the end; `CACHE.keys().next().value` is the key
of the head. -/

/-- Entry stored in the cache: payload plus absolute expiry in ms. -/
structure CacheEntry (α : Type) where
  data : α
  until_ : Nat
deriving Repr, DecidableEq

/-- The in-memory cache: association list in insertion order. -/
abbrev Cache (α : Type) := List (String × CacheEntry α)

/-- JS `Map.prototype.get`: the value stored for `k`, if any. -/
def mapLookup {α : Type} : Cache α → String → Option (CacheEntry α)
  | [], _ => none
  | (k', e) :: rest, k => if k' = k then some e else mapLookup rest k

/-- JS `Map.prototype.set`: update in place if `k` is present, else append. -/
def mapSet {α : Type} : Cache α → String → CacheEntry α → Cache α
  | [], k, e => [(k, e)]
  | (k', e') :: rest, k, e =>
    if k' = k then (k, e) :: rest else (k', e') :: mapSet rest k e

/-- JS `Map.prototype.delete`: remove the (first) entry with key `k`. -/
def mapDelete {α : Type} : Cache α → String → Cache α
  | [], _ => []
  | (k', e') :: rest, k => if k' = k then rest else (k', e') :: mapDelete rest k

/-- Maximum entry count of the cache (`CACHE.size > 5000` eviction guard). -/
def MAX_CACHE_SIZE : Nat := 5000

/-- Embedding of `put` (lines 6-12), generalized over the capacity:
store `v` with expiry `now + ttlSec*1000`, then if the size exceeds
`cap` delete the entry whose key is first in iteration order. -/
def putCap {α : Type} (cap : Nat) (c : Cache α) (k : String) (v : α)
    (ttlSec : Nat) (now : Nat) : Cache α :=
  let m := mapSet c k ⟨v, now + ttlSec * 1000⟩
  if cap < m.length then
    match m with
    | [] => m
    | (k0, _) :: _ => mapDelete m k0
  else m

/-- The source's `put` with its hard-coded capacity of 5000. -/
def put {α : Type} (c : Cache α) (k : String) (v : α) (ttlSec : Nat)
    (now : Nat) : Cache α :=
  putCap MAX_CACHE_SIZE c k v ttlSec now

/-- Embedding of `get` (lines 13-18): absent key gives `none`; an
expired entry (`Date.now() > e.until`) is deleted and gives `none`;
otherwise the stored payload is returned.  The second component is the
cache state after the call (only the expired-read deletion mutates). -/
def get {α : Type} (c : Cache α) (k : String) (now : Nat) :
    Option α × Cache α :=
  match mapLookup c k with
  | none => (none, c)
  | some e => if e.until_ < now then (none, mapDelete c k) else (some e.data, c)

/-! ### Config and key derivation (`places.ts` lines 21-51) -/

/-- Allow-list of actions (`ALLOWED`, lines 21-28). -/
def ALLOWED : List String :=
  ["searchText", "nearbySearch", "details", "autocomplete", "batchDetails", "health"]

/-- Embedding of `normalizeId` (lines 33-34): drop a leading
`places/` namespace segment (7 characters), else return the id
unchanged. -/
def normalizeId (id : String) : String :=
  if id.data.take 7 = "places/".data then String.mk (id.data.drop 7) else id

/-- Known-good default field mask (`DEFAULT_FIELDS`, lines 37-50). -/
def DEFAULT_FIELDS : List String :=
  ["id", "displayName", "formattedAddress", "rating", "userRatingCount",
   "reviews.rating", "reviews.text", "reviews.publishTime",
   "reviews.relativePublishTimeDescription",
   "reviews.authorAttribution.displayName",
   "reviews.authorAttribution.uri",
   "reviews.authorAttribution.photoUri"]

/-- Lexicographic comparison of character lists by code point, the
order used by JS `Array.prototype.sort()` on strings. -/
def lexLe : List Char → List Char → Bool
  | [], _ => true
  | _ :: _, [] => false
  | a :: as, b :: bs =>
    if a.toNat < b.toNat then true
    else if b.toNat < a.toNat then false
    else lexLe as bs

/-- Order on field strings induced by `lexLe` on their characters. -/
def fieldLe (a b : String) : Prop := lexLe a.data b.data = true

instance : DecidableRel fieldLe :=
  fun a b => inferInstanceAs (Decidable (lexLe a.data b.data = true))

/-- Embedding of `fields.slice().sort()`: sort the field list without
mutating the caller's copy. -/
def sortFields (l : List String) : List String := List.insertionSort fieldLe l

/-- Cache-key derivation for details-shaped lookups (lines 91 and 135):
`details:<rawId>:<sorted fields joined by comma>`. -/
def detailsCacheKey (rawId : String) (fields : List String) : String :=
  "details:" ++ rawId ++ ":" ++ String.intercalate "," (sortFields fields)

/-! ### Field-mask error detection (lines 106 and 150)

The source tests `r.status === 400` and the case-insensitive regex
`/Error expanding 'fields' parameter/i` against the response body; the
pattern has no regex metacharacters, so the test is case-insensitive
substring containment. -/

/-- Character by character prefix match. -/
def matchAt : List Char → List Char → Bool
  | [], _ => true
  | _ :: _, [] => false
  | p :: ps, c :: cs => p == c && matchAt ps cs

/-- Containment of `pat` as a contiguous run inside a character list. -/
def containsPat (pat : List Char) : List Char → Bool
  | [] => matchAt pat []
  | c :: cs => matchAt pat (c :: cs) || containsPat pat cs

/-- The apostrophe character, U+0027. -/
def apos : Char := Char.ofNat 39

/-- Lower-cased characters of the pattern
`Error expanding 'fields' parameter`. -/
def fieldMaskPat : List Char :=
  "error expanding ".data ++ (apos :: "fields".data) ++ (apos :: " parameter".data)

/-- Classifier for the upstream field-expansion validation failure:
status 400 and the body matches the pattern case-insensitively. -/
def isFieldMaskError (status : Nat) (body : String) : Bool :=
  status == 400 && containsPat fieldMaskPat (body.data.map Char.toLower)

/-! ### Upstream model

One `fetch` either resolves 2xx with a decoded JSON payload or
non-2xx with an HTTP status and raw body text.  An oracle
`Nat → UpstreamResult` gives the response to the n-th outbound call
issued for one logical details lookup (n is 0 for the original call,
1 for the fallback retry). -/

/-- Outcome of one outbound call. -/
inductive UpstreamResult where
  | success (json : Payload)
  | failure (status : Nat) (body : String)
deriving Repr, DecidableEq

/-- Record of one outbound request actually issued.  The URLs and
headers of the source are deterministic functions of these fields
(base URL, encoded raw id, comma-joined field mask). -/
inductive UpstreamCall where
  | detailsGet (placeId : String) (fieldMask : List String)
  | searchPost (endpoint : String)
  | autocompleteGet (input : String)
deriving Repr, DecidableEq

/-- Embedding of the shared details fetch-and-fallback logic
(lines 95-122 inside the batch map, duplicated at lines 139-165 for
the single details action): issue the GET with the caller's mask; on a
field-mask error retry exactly once with `DEFAULT_FIELDS`; any other
failure, or a failing retry, is surfaced with its status and body.
Returns the outcome and the list of calls issued, in order. -/
def detailsUpstream (orc : Nat → UpstreamResult) (rawId : String)
    (fields : List String) : Except (Nat × String) Payload × List UpstreamCall :=
  match orc 0 with
  | .success p => (.ok p, [.detailsGet rawId fields])
  | .failure s b =>
    if isFieldMaskError s b then
      match orc 1 with
      | .success p =>
        (.ok p, [.detailsGet rawId fields, .detailsGet rawId DEFAULT_FIELDS])
      | .failure s2 b2 =>
        (.error (s2, b2), [.detailsGet rawId fields, .detailsGet rawId DEFAULT_FIELDS])
    else (.error (s, b), [.detailsGet rawId fields])

/-! ### Responses -/

/-- Per-identifier outcome inside a `batchDetails` response:
`{placeId, data, cached}` on success or `{placeId, error: true,
status, body}` on failure. -/
inductive ItemResult where
  | success (placeId : String) (data : Payload) (cached : Bool)
  | failure (placeId : String) (status : Nat) (body : String)
deriving Repr, DecidableEq

/-- JSON body shapes the handler can produce. -/
inductive ResponseBody where
  | err (code : String)
  | googleErr (body : String)
  | health (ok : Bool) (cacheEntries : Nat)
  | detailsData (data : Payload) (cached : Bool)
  | searchData (data : Payload)
  | batchResults (results : List ItemResult)
deriving Repr, DecidableEq

/-- HTTP response: status plus optional JSON body (`none` for the
body-less 204 answered to OPTIONS). -/
structure Response where
  status : Nat
  body : Option ResponseBody
deriving Repr, DecidableEq

/-! ### Request and environment -/

/-- Relevant fields of the JSON request body.  `none` models an absent
field (for `placeIds`, also a non-array value, which fails the same
`Array.isArray` guard an absent field's `[]` default fails on length). -/
structure RequestBody where
  placeIds : Option (List String)
  placeId : Option String
  fields : Option (List String)
  textQuery : Option String
  lat : Option Int
  lng : Option Int
  input : Option String
deriving Repr, DecidableEq

/-- Incoming request: HTTP method, the resolved `action` string
(`req.query.action || req.body?.action || ''`), the `x-gateway-key`
header if present, and the body. -/
structure Request where
  method : String
  action : String
  gatewayKey : Option String
  body : RequestBody
deriving Repr, DecidableEq

/-- Server-side environment variables; `none` is unset. -/
structure Env where
  gatewayToken : Option String
  googleApiKey : Option String
deriving Repr, DecidableEq

/-- JS truthiness of an optional environment string: unset and the
empty string are falsy. -/
def envTruthy : Option String → Bool
  | none => false
  | some s => !(s == "")

/-- The gateway credential check of lines 64-67:
`!process.env.GATEWAY_TOKEN || gatewayKey !== process.env.GATEWAY_TOKEN`
fails unless the token is truthy and the header equals it. -/
def authOk (env : Env) (req : Request) : Bool :=
  match env.gatewayToken with
  | none => false
  | some t => !(t == "") && req.gatewayKey == some t

/-! ### Details and batch handlers -/

/-- Embedding of the single `details` branch after the
`placeId_required` guard (lines 134-167): normalize the id, derive the
cache key from the caller's field list, consult the cache, on a miss
run the fetch-with-fallback and on success store the payload under the
original key with TTL 3600. -/
def detailsHandlerCore (cache : Cache Payload) (now : Nat) (placeId : String)
    (fieldsOpt : Option (List String)) (orc : Nat → UpstreamResult) :
    Response × Cache Payload × List UpstreamCall :=
  let rawId := normalizeId placeId
  let fields := fieldsOpt.getD DEFAULT_FIELDS
  let key := detailsCacheKey rawId fields
  match get cache key now with
  | (some d, c1) => (⟨200, some (.detailsData d true)⟩, c1, [])
  | (none, c1) =>
    match detailsUpstream orc rawId fields with
    | (.ok p, calls) =>
      (⟨200, some (.detailsData p false)⟩, put c1 key p 3600 now, calls)
    | (.error (s, b), calls) => (⟨s, some (.googleErr b)⟩, c1, calls)

/-- One batch item after its cache probe (the body of the
`placeIds.map` callback, lines 89-124): `hit` is what the item's
synchronous cache `get` returned.  Produces the item's result, the
outbound calls it issued, and the cache write (key, payload) it
performs on success. -/
def batchItemStep (orc : Nat → UpstreamResult) (pid : String)
    (fields : List String) (hit : Option Payload) :
    ItemResult × List UpstreamCall × Option (String × Payload) :=
  let rawId := normalizeId pid
  match hit with
  | some d => (.success rawId d true, [], none)
  | none =>
    match detailsUpstream orc rawId fields with
    | (.ok p, calls) =>
      (.success rawId p false, calls, some (detailsCacheKey rawId fields, p))
    | (.error (s, b), calls) => (.failure rawId s b, calls, none)

/-- Cache probes of a batch.  The `async` map callbacks run
synchronously up to their first `await`, so every item's `get` executes
in list order before any upstream response is processed; the cache
state (expired-entry deletions) is threaded through in that order. -/
def runBatchGets (fields : List String) (now : Nat) :
    Cache Payload → List String → List (String × Option Payload) × Cache Payload
  | cache, [] => ([], cache)
  | cache, pid :: rest =>
    let probe := get cache (detailsCacheKey (normalizeId pid) fields) now
    let tail := runBatchGets fields now probe.2 rest
    ((pid, probe.1) :: tail.1, tail.2)

/-- Cache writes of the completed batch items, applied in list order
(completion order is unspecified; writes commute up to which entry is
oldest, and each write is an unconditional `put`). -/
def applyWrites (now : Nat) (c : Cache Payload)
    (ws : List (Option (String × Payload))) : Cache Payload :=
  ws.foldl (fun acc w => match w with
    | some (k, p) => put acc k p 3600 now
    | none => acc) c

/-- Embedding of the `batchDetails` branch after its guards
(lines 89-127): probe the cache for every id, run each miss through
the fetch-with-fallback, aggregate per-item outcomes in input order,
and apply the cache writes. -/
def batchCore (cache : Cache Payload) (now : Nat) (placeIds : List String)
    (fields : List String) (orc : String → Nat → UpstreamResult) :
    Response × Cache Payload × List UpstreamCall :=
  let probes := runBatchGets fields now cache placeIds
  let items := probes.1.map (fun ph => batchItemStep (orc (normalizeId ph.1)) ph.1 fields ph.2)
  let c2 := applyWrites now probes.2 (items.map (fun it => it.2.2))
  (⟨200, some (.batchResults (items.map (fun it => it.1)))⟩, c2,
   (items.map (fun it => it.2.1)).flatten)

/-! ### Dispatcher -/

/-- Embedding of the exported `handler` (lines 53-237): CORS preflight,
action allow-list, gateway credential, health short-circuit, provider
credential, then the per-action branches.  `orc` answers the
details-shaped GETs (per raw id, per call index); `searchOracle`
answers the single outbound call of the search/autocomplete branches.
Returns the response, the cache state afterwards, and every outbound
call issued. -/
def handler (env : Env) (now : Nat) (cache : Cache Payload) (req : Request)
    (orc : String → Nat → UpstreamResult) (searchOracle : UpstreamResult) :
    Response × Cache Payload × List UpstreamCall :=
  if req.method = "OPTIONS" then (⟨204, none⟩, cache, [])
  else if !(ALLOWED.contains req.action) then
    (⟨400, some (.err "invalid_action")⟩, cache, [])
  else if !(authOk env req) then
    (⟨401, some (.err "unauthorized")⟩, cache, [])
  else if req.action = "health" then
    (⟨200, some (.health true cache.length)⟩, cache, [])
  else if !(envTruthy env.googleApiKey) then
    (⟨500, some (.err "missing_google_api_key")⟩, cache, [])
  else if req.action = "batchDetails" then
    match req.body.placeIds with
    | none => (⟨400, some (.err "placeIds_required")⟩, cache, [])
    | some pids =>
      if pids.length = 0 then (⟨400, some (.err "placeIds_required")⟩, cache, [])
      else if 50 < pids.length then
        (⟨400, some (.err "too_many_placeIds_max_50")⟩, cache, [])
      else batchCore cache now pids (req.body.fields.getD DEFAULT_FIELDS) orc
  else if req.action = "details" then
    match req.body.placeId with
    | none => (⟨400, some (.err "placeId_required")⟩, cache, [])
    | some pid =>
      if pid = "" then (⟨400, some (.err "placeId_required")⟩, cache, [])
      else detailsHandlerCore cache now pid req.body.fields (orc (normalizeId pid))
  else if req.action = "searchText" then
    match req.body.textQuery with
    | none => (⟨400, some (.err "textQuery_required")⟩, cache, [])
    | some q =>
      if q = "" then (⟨400, some (.err "textQuery_required")⟩, cache, [])
      else
        match searchOracle with
        | .success j => (⟨200, some (.searchData j)⟩, cache, [.searchPost "text:search"])
        | .failure s b => (⟨s, some (.googleErr b)⟩, cache, [.searchPost "text:search"])
  else if req.action = "nearbySearch" then
    if req.body.lat.isNone || req.body.lng.isNone then
      (⟨400, some (.err "lat_lng_required")⟩, cache, [])
    else
      match searchOracle with
      | .success j => (⟨200, some (.searchData j)⟩, cache, [.searchPost "places:searchNearby"])
      | .failure s b => (⟨s, some (.googleErr b)⟩, cache, [.searchPost "places:searchNearby"])
  else if req.action = "autocomplete" then
    match req.body.input with
    | none => (⟨400, some (.err "input_required")⟩, cache, [])
    | some q =>
      if q = "" then (⟨400, some (.err "input_required")⟩, cache, [])
      else
        match searchOracle with
        | .success j => (⟨200, some (.searchData j)⟩, cache, [.autocompleteGet q])
        | .failure s b => (⟨s, some (.googleErr b)⟩, cache, [.autocompleteGet q])
  else (⟨400, some (.err "unhandled_action")⟩, cache, [])

/-! ### Cache lemmas -/

variable {α : Type}

theorem mapLookup_mapSet_self (c : Cache α) (k : String) (e : CacheEntry α) :
    mapLookup (mapSet c k e) k = some e := by
  induction c with
  | nil => simp [mapSet, mapLookup]
  | cons hd tl ih =>
    by_cases h : hd.1 = k
    · simp [mapSet, mapLookup, h]
    · simp [mapSet, mapLookup, h, ih]

theorem mapSet_of_lookup_none (c : Cache α) (k : String) (e : CacheEntry α)
    (h : mapLookup c k = none) : mapSet c k e = c ++ [(k, e)] := by
  induction c with
  | nil => simp [mapSet]
  | cons hd tl ih =>
    by_cases hk : hd.1 = k
    · simp [mapLookup, hk] at h
    · simp [mapLookup, hk] at h
      simp [mapSet, hk, ih h]

theorem mapSet_length_of_lookup_none (c : Cache α) (k : String) (e : CacheEntry α)
    (h : mapLookup c k = none) : (mapSet c k e).length = c.length + 1 := by
  rw [mapSet_of_lookup_none c k e h]
  simp

theorem mapSet_length_of_lookup_some (c : Cache α) (k : String) (e e' : CacheEntry α)
    (h : mapLookup c k = some e') : (mapSet c k e).length = c.length := by
  induction c with
  | nil => simp [mapLookup] at h
  | cons hd tl ih =>
    by_cases hk : hd.1 = k
    · simp [mapSet, hk]
    · simp [mapLookup, hk] at h
      simp [mapSet, hk, ih h]

theorem mapSet_length_le (c : Cache α) (k : String) (e : CacheEntry α) :
    (mapSet c k e).length ≤ c.length + 1 := by
  cases h : mapLookup c k with
  | none => rw [mapSet_length_of_lookup_none c k e h]
  | some e' => rw [mapSet_length_of_lookup_some c k e e' h]; omega

theorem mapLookup_append_of_lookup_none (c d : Cache α) (k : String)
    (h : mapLookup c k = none) : mapLookup (c ++ d) k = mapLookup d k := by
  induction c with
  | nil => simp
  | cons hd tl ih =>
    by_cases hk : hd.1 = k
    · simp [mapLookup, hk] at h
    · simp [mapLookup, hk] at h
      simp [mapLookup, hk, ih h]

theorem mapDelete_length_le (c : Cache α) (k : String) :
    (mapDelete c k).length ≤ c.length := by
  induction c with
  | nil => simp [mapDelete]
  | cons hd tl ih =>
    by_cases hk : hd.1 = k
    · simp [mapDelete, hk]
    · simp [mapDelete, hk]; omega

theorem get_snd_length_le (c : Cache α) (k : String) (now : Nat) :
    (get c k now).2.length ≤ c.length := by
  unfold get
  cases h : mapLookup c k with
  | none => simp
  | some e =>
    by_cases he : e.until_ < now
    · simpa [he] using mapDelete_length_le c k
    · simp [he]

theorem put_length_le (c : Cache α) (k : String) (v : α) (ttl now : Nat)
    (hsize : c.length ≤ MAX_CACHE_SIZE) :
    (put c k v ttl now).length ≤ MAX_CACHE_SIZE := by
  unfold put putCap
  have hle := mapSet_length_le c k ⟨v, now + ttl * 1000⟩
  by_cases hbig : MAX_CACHE_SIZE < (mapSet c k ⟨v, now + ttl * 1000⟩).length
  · simp only [hbig, if_true]
    cases hm : mapSet c k ⟨v, now + ttl * 1000⟩ with
    | nil => simp [hm] at hbig
    | cons hd tl =>
      rw [hm] at hle hbig
      simp at hle hbig
      cases hd with
      | mk k0 e0 =>
        simp [mapDelete]
        omega
  · simpa [hbig] using Nat.le_of_not_lt hbig

theorem lookup_put_self (c : Cache α) (k : String) (v : α) (ttl now : Nat)
    (hsize : c.length ≤ MAX_CACHE_SIZE) :
    mapLookup (put c k v ttl now) k = some ⟨v, now + ttl * 1000⟩ := by
  unfold put putCap
  by_cases hbig : MAX_CACHE_SIZE < (mapSet c k ⟨v, now + ttl * 1000⟩).length
  · simp only [hbig, if_true]
    have hnone : mapLookup c k = none := by
      cases h : mapLookup c k with
      | none => rfl
      | some e' =>
        have := mapSet_length_of_lookup_some c k ⟨v, now + ttl * 1000⟩ e' h
        omega
    have hset := mapSet_of_lookup_none c k ⟨v, now + ttl * 1000⟩ hnone
    cases c with
    | nil =>
      simp [hset, MAX_CACHE_SIZE] at hbig
    | cons hd tl =>
      cases hd with
      | mk k0 e0 =>
        have hk0 : ¬k0 = k := by
          intro hkk; simp [mapLookup, hkk] at hnone
        simp [mapLookup, hk0] at hnone
        rw [hset]
        simp [mapDelete]
        rw [mapLookup_append_of_lookup_none tl [(k, ⟨v, now + ttl * 1000⟩)] k hnone]
        simp [mapLookup]
  · simp only [hbig, if_false]
    exact mapLookup_mapSet_self c k ⟨v, now + ttl * 1000⟩

theorem lookup_eq_none_iff (c : Cache α) (k : String) :
    mapLookup c k = none ↔ k ∉ c.map Prod.fst := by
  induction c with
  | nil => simp [mapLookup]
  | cons hd tl ih =>
    by_cases hk : hd.1 = k
    · simp [mapLookup, hk]
    · simp only [mapLookup, hk, if_false, List.map_cons, List.mem_cons]
      rw [ih]
      constructor
      · intro h hor
        rcases hor with h1 | h2
        · exact hk h1.symm
        · exact h h2
      · intro h hm
        exact h (Or.inr hm)

theorem keys_mapSet_of_lookup_some (c : Cache α) (k : String) (e e' : CacheEntry α)
    (h : mapLookup c k = some e') :
    (mapSet c k e).map Prod.fst = c.map Prod.fst := by
  induction c with
  | nil => simp [mapLookup] at h
  | cons hd tl ih =>
    by_cases hk : hd.1 = k
    · simp [mapSet, hk]
    · simp only [mapLookup, hk, if_false] at h
      simp [mapSet, hk, ih h]

theorem keys_mapDelete_sublist (c : Cache α) (k : String) :
    ((mapDelete c k).map Prod.fst).Sublist (c.map Prod.fst) := by
  induction c with
  | nil => simp [mapDelete]
  | cons hd tl ih =>
    cases hd with
    | mk k0 e0 =>
      by_cases hk : k0 = k
      · simp only [mapDelete, hk, if_true, List.map_cons]
        exact List.sublist_cons_self k (tl.map Prod.fst)
      · simp only [mapDelete, hk, if_false, List.map_cons]
        exact ih.cons₂ k0

theorem put_keys_nodup (c : Cache α) (k : String) (v : α) (ttl now : Nat)
    (h : (c.map Prod.fst).Nodup) :
    ((put c k v ttl now).map Prod.fst).Nodup := by
  unfold put putCap
  have hm : ((mapSet c k ⟨v, now + ttl * 1000⟩).map Prod.fst).Nodup := by
    cases hl : mapLookup c k with
    | none =>
      rw [mapSet_of_lookup_none c k ⟨v, now + ttl * 1000⟩ hl]
      have hk : k ∉ c.map Prod.fst := (lookup_eq_none_iff c k).mp hl
      rw [List.map_append]
      refine List.Nodup.append h (List.nodup_singleton k) ?_
      intro a ha hak
      simp only [List.map_cons, List.map_nil, List.mem_singleton] at hak
      exact hk (hak ▸ ha)
    | some e' =>
      rw [keys_mapSet_of_lookup_some c k ⟨v, now + ttl * 1000⟩ e' hl]
      exact h
  by_cases hbig : MAX_CACHE_SIZE < (mapSet c k ⟨v, now + ttl * 1000⟩).length
  · simp only [hbig, if_true]
    cases hmm : mapSet c k ⟨v, now + ttl * 1000⟩ with
    | nil => simp
    | cons hd tl =>
      cases hd with
      | mk k0 e0 =>
        rw [hmm] at hm
        exact hm.sublist (keys_mapDelete_sublist ((k0, e0) :: tl) k0)
  · simpa [hbig] using hm

theorem lookup_mapDelete_self_of_nodup (c : Cache α) (k : String)
    (h : (c.map Prod.fst).Nodup) : mapLookup (mapDelete c k) k = none := by
  induction c with
  | nil => simp [mapDelete, mapLookup]
  | cons hd tl ih =>
    simp only [List.map_cons, List.nodup_cons] at h
    by_cases hk : hd.1 = k
    · simp only [mapDelete, hk, if_true]
      exact (lookup_eq_none_iff tl k).mpr (hk ▸ h.1)
    · simp only [mapDelete, hk, if_false, mapLookup]
      exact ih h.2

theorem get_of_lookup_none (c : Cache α) (k : String) (now : Nat)
    (hl : mapLookup c k = none) : get c k now = (none, c) := by
  unfold get
  rw [hl]

theorem get_of_lookup_some_live (c : Cache α) (k : String) (now : Nat)
    (e : CacheEntry α) (hl : mapLookup c k = some e) (hlive : ¬e.until_ < now) :
    get c k now = (some e.data, c) := by
  unfold get
  rw [hl]
  simp [hlive]

theorem get_of_lookup_some_expired (c : Cache α) (k : String) (now : Nat)
    (e : CacheEntry α) (hl : mapLookup c k = some e) (hexp : e.until_ < now) :
    get c k now = (none, mapDelete c k) := by
  unfold get
  rw [hl]
  simp [hexp]

/-- C2: for every key `k` and value `v`, `put(k, v, ttl)` followed
immediately by `get(k)` returns `v`; a `get(k)` performed after the
TTL has elapsed returns absent and deletes the entry (no entry for `k`
remains); and `get` of a never-stored key returns absent with no side
effect on the cache.  The hypotheses are the `Map` invariants: the
cache never exceeds its capacity and keys are unique. -/
theorem cache_put_get_roundtrip (c : Cache α) (k : String) (v : α)
    (ttl now now2 : Nat) (hsize : c.length ≤ MAX_CACHE_SIZE)
    (hnodup : (c.map Prod.fst).Nodup) :
    (get (put c k v ttl now) k now).1 = some v
    ∧ (now + ttl * 1000 < now2 →
        (get (put c k v ttl now) k now2).1 = none
        ∧ mapLookup (get (put c k v ttl now) k now2).2 k = none)
    ∧ (∀ c' : Cache α, mapLookup c' k = none → get c' k now = (none, c')) := by
  have hl := lookup_put_self c k v ttl now hsize
  refine ⟨?_, ?_, ?_⟩
  · rw [get_of_lookup_some_live (put c k v ttl now) k now ⟨v, now + ttl * 1000⟩ hl ?_]
    show ¬now + ttl * 1000 < now
    omega
  · intro hlate
    have hexp : (⟨v, now + ttl * 1000⟩ : CacheEntry α).until_ < now2 := hlate
    rw [get_of_lookup_some_expired (put c k v ttl now) k now2 ⟨v, now + ttl * 1000⟩ hl hexp]
    refine ⟨rfl, ?_⟩
    exact lookup_mapDelete_self_of_nodup (put c k v ttl now) k
      (put_keys_nodup c k v ttl now hnodup)
  · intro c' hnone
    exact get_of_lookup_none c' k now hnone

/-- Witness for C2 at a concrete cache, key, value and clock. -/
theorem cache_put_get_roundtrip_witness :
    (get (put ([] : Cache String) "k" "v" 3600 100) "k" 100).1 = some "v"
    ∧ (100 + 3600 * 1000 < 3700101 →
        (get (put ([] : Cache String) "k" "v" 3600 100) "k" 3700101).1 = none
        ∧ mapLookup (get (put ([] : Cache String) "k" "v" 3600 100) "k" 3700101).2 "k" = none)
    ∧ (∀ c' : Cache String, mapLookup c' "k" = none → get c' "k" 100 = (none, c')) :=
  cache_put_get_roundtrip [] "k" "v" 3600 100 3700101 (by decide) (by decide)

/-- C3: after every `put` on a cache within capacity the size stays
within the 5000-entry cap; when the insertion pushes the size over the
cap exactly one entry is evicted, namely the head of the
insertion-ordered list (the oldest-inserted surviving entry — a key
rewritten by `Map.set` keeps its original position), all newer entries
surviving; and when the insertion does not push the size over the cap
nothing is evicted. -/
theorem cache_capacity_eviction (c : Cache α) (k : String) (v : α)
    (ttl now : Nat) (hsize : c.length ≤ MAX_CACHE_SIZE) :
    (put c k v ttl now).length ≤ MAX_CACHE_SIZE
    ∧ (c.length = MAX_CACHE_SIZE → mapLookup c k = none →
        put c k v ttl now = c.tail ++ [(k, ⟨v, now + ttl * 1000⟩)])
    ∧ ((c.length < MAX_CACHE_SIZE ∨ mapLookup c k ≠ none) →
        put c k v ttl now = mapSet c k ⟨v, now + ttl * 1000⟩) := by
  refine ⟨put_length_le c k v ttl now hsize, ?_, ?_⟩
  · intro hfull hnone
    have hset := mapSet_of_lookup_none c k ⟨v, now + ttl * 1000⟩ hnone
    unfold put putCap
    rw [hset]
    cases c with
    | nil => simp [MAX_CACHE_SIZE] at hfull
    | cons hd tl =>
      have hlen : ((hd :: tl) ++ [(k, (⟨v, now + ttl * 1000⟩ : CacheEntry α))]).length
          = MAX_CACHE_SIZE + 1 := by
        simp only [List.length_append, List.length_singleton]
        rw [hfull]
      rw [if_pos (by rw [hlen]; omega)]
      cases hd with
      | mk k0 e0 =>
        simp [mapDelete]
  · intro h
    have hsmall : ¬MAX_CACHE_SIZE < (mapSet c k ⟨v, now + ttl * 1000⟩).length := by
      cases hl : mapLookup c k with
      | none =>
        rcases h with hlt | hne
        · rw [mapSet_length_of_lookup_none c k ⟨v, now + ttl * 1000⟩ hl]
          omega
        · exact absurd hl hne
      | some e' =>
        rw [mapSet_length_of_lookup_some c k ⟨v, now + ttl * 1000⟩ e' hl]
        omega
    unfold put putCap
    rw [if_neg hsmall]

/-- Witness for C3 at a concrete one-entry cache. -/
theorem cache_capacity_eviction_witness :
    (put ([("a", ⟨"x", 5⟩)] : Cache String) "k" "v" 3600 100).length ≤ MAX_CACHE_SIZE
    ∧ ([("a", (⟨"x", 5⟩ : CacheEntry String))].length = MAX_CACHE_SIZE →
        mapLookup ([("a", ⟨"x", 5⟩)] : Cache String) "k" = none →
        put ([("a", ⟨"x", 5⟩)] : Cache String) "k" "v" 3600 100 =
          ([("a", (⟨"x", 5⟩ : CacheEntry String))]).tail ++ [("k", ⟨"v", 100 + 3600 * 1000⟩)])
    ∧ (([("a", (⟨"x", 5⟩ : CacheEntry String))].length < MAX_CACHE_SIZE ∨
          mapLookup ([("a", ⟨"x", 5⟩)] : Cache String) "k" ≠ none) →
        put ([("a", ⟨"x", 5⟩)] : Cache String) "k" "v" 3600 100 =
          mapSet [("a", ⟨"x", 5⟩)] "k" ⟨"v", 100 + 3600 * 1000⟩) :=
  cache_capacity_eviction [("a", ⟨"x", 5⟩)] "k" "v" 3600 100 (by decide)

/-! ### Identifier normalization -/

theorem normalizeId_prefixed (pid : String) :
    normalizeId ("places/" ++ pid) = pid := by
  unfold normalizeId
  have h7 : ("places/".data).length = 7 := by decide
  have hdata : ("places/" ++ pid).data = "places/".data ++ pid.data :=
    String.data_append _ _
  have htake : ("places/" ++ pid).data.take 7 = "places/".data := by
    rw [hdata, ← h7]
    exact List.take_left _ _
  rw [if_pos htake, hdata, ← h7, List.drop_left]

theorem normalizeId_raw (pid : String) (h : pid.data.take 7 ≠ "places/".data) :
    normalizeId pid = pid := by
  unfold normalizeId
  rw [if_neg h]

/-- C4: for every place identifier and field set, a details or
batch-details lookup using the raw identifier and one using the
namespace-prefixed `places/` form normalize to the same raw id, derive
the identical cache key, and behave identically end to end (same
response, same cache entry touched, same outbound calls carrying the
raw id). -/
theorem id_normalization (pid : String) (fields : List String)
    (h : pid.data.take 7 ≠ "places/".data) :
    normalizeId ("places/" ++ pid) = normalizeId pid
    ∧ detailsCacheKey (normalizeId ("places/" ++ pid)) fields
        = detailsCacheKey (normalizeId pid) fields
    ∧ (∀ cache now fieldsOpt orc,
        detailsHandlerCore cache now ("places/" ++ pid) fieldsOpt orc
          = detailsHandlerCore cache now pid fieldsOpt orc)
    ∧ (∀ orc hit, batchItemStep orc ("places/" ++ pid) fields hit
          = batchItemStep orc pid fields hit) := by
  have hn : normalizeId ("places/" ++ pid) = normalizeId pid := by
    rw [normalizeId_prefixed pid, normalizeId_raw pid h]
  refine ⟨hn, by rw [hn], ?_, ?_⟩
  · intro cache now fieldsOpt orc
    unfold detailsHandlerCore
    rw [hn]
  · intro orc hit
    unfold batchItemStep
    rw [hn]

/-- Witness for C4 at the identifier of the spec's scenario. -/
theorem id_normalization_witness :
    normalizeId ("places/" ++ "ChIJabc") = normalizeId "ChIJabc"
    ∧ detailsCacheKey (normalizeId ("places/" ++ "ChIJabc")) ["a"]
        = detailsCacheKey (normalizeId "ChIJabc") ["a"]
    ∧ (∀ cache now fieldsOpt orc,
        detailsHandlerCore cache now ("places/" ++ "ChIJabc") fieldsOpt orc
          = detailsHandlerCore cache now "ChIJabc" fieldsOpt orc)
    ∧ (∀ orc hit, batchItemStep orc ("places/" ++ "ChIJabc") ["a"] hit
          = batchItemStep orc "ChIJabc" ["a"] hit) :=
  id_normalization "ChIJabc" ["a"] (by decide)

/-! ### Field-list sorting -/

theorem lexLe_total : ∀ x y : List Char, lexLe x y = true ∨ lexLe y x = true := by
  intro x
  induction x with
  | nil => intro y; left; rfl
  | cons a as ih =>
    intro y
    cases y with
    | nil => right; rfl
    | cons b bs =>
      by_cases h1 : a.toNat < b.toNat
      · left; simp [lexLe, h1]
      · by_cases h2 : b.toNat < a.toNat
        · right; simp [lexLe, h2]
        · rcases ih bs with h | h
          · left; simp [lexLe, h1, h2, h]
          · right; simp [lexLe, h1, h2, h]

theorem lexLe_trans :
    ∀ x y z : List Char, lexLe x y = true → lexLe y z = true → lexLe x z = true := by
  intro x
  induction x with
  | nil => intro y z _ _; rfl
  | cons a as ih =>
    intro y z h1 h2
    cases y with
    | nil => simp [lexLe] at h1
    | cons b bs =>
      cases z with
      | nil => simp [lexLe] at h2
      | cons c cs =>
        simp only [lexLe] at h1 h2 ⊢
        by_cases hab : a.toNat < b.toNat
        · by_cases hbc : b.toNat < c.toNat
          · simp [Nat.lt_trans hab hbc]
          · by_cases hcb : c.toNat < b.toNat
            · simp [hbc, hcb] at h2
            · have hac : a.toNat < c.toNat := by omega
              simp [hac]
        · by_cases hba : b.toNat < a.toNat
          · simp [hab, hba] at h1
          · by_cases hbc : b.toNat < c.toNat
            · have hac : a.toNat < c.toNat := by omega
              simp [hac]
            · by_cases hcb : c.toNat < b.toNat
              · simp [hbc, hcb] at h2
              · simp only [hab, hba, if_false] at h1
                simp only [hbc, hcb, if_false] at h2
                have hca : ¬a.toNat < c.toNat := by omega
                have hac : ¬c.toNat < a.toNat := by omega
                simp [hca, hac, ih bs cs h1 h2]

theorem lexLe_antisymm :
    ∀ x y : List Char, lexLe x y = true → lexLe y x = true → x = y := by
  intro x
  induction x with
  | nil =>
    intro y h1 h2
    cases y with
    | nil => rfl
    | cons b bs => simp [lexLe] at h2
  | cons a as ih =>
    intro y h1 h2
    cases y with
    | nil => simp [lexLe] at h1
    | cons b bs =>
      simp only [lexLe] at h1 h2
      by_cases hab : a.toNat < b.toNat
      · have hba : ¬b.toNat < a.toNat := by omega
        simp [hab, hba] at h2
      · by_cases hba : b.toNat < a.toNat
        · simp [hab, hba] at h1
        · have heq : a = b := by
            apply Char.ext
            have hnat : a.toNat = b.toNat := by omega
            unfold Char.toNat at hnat
            exact UInt32.toNat.inj hnat
          simp only [hab, hba, if_false] at h1 h2
          rw [heq, ih bs h1 h2]

instance : IsTotal String fieldLe := ⟨fun a b => lexLe_total a.data b.data⟩

instance : IsTrans String fieldLe := ⟨fun a b c => lexLe_trans a.data b.data c.data⟩

instance : IsAntisymm String fieldLe :=
  ⟨fun a b h1 h2 => by
    have hd := lexLe_antisymm a.data b.data h1 h2
    cases a; cases b
    exact congrArg String.mk hd⟩

theorem sortFields_perm_invariant (l1 l2 : List String) (h : l1.Perm l2) :
    sortFields l1 = sortFields l2 :=
  List.eq_of_perm_of_sorted
    ((List.perm_insertionSort fieldLe l1).trans
      (h.trans (List.perm_insertionSort fieldLe l2).symm))
    (List.sorted_insertionSort fieldLe l1)
    (List.sorted_insertionSort fieldLe l2)

/-- C5: two field lists that are permutations of each other derive the
identical details cache key for the same identifier, because the field
list is sorted before the key is built. -/
theorem cache_key_order_independence (rawId : String) (l1 l2 : List String)
    (h : l1.Perm l2) : detailsCacheKey rawId l1 = detailsCacheKey rawId l2 := by
  unfold detailsCacheKey
  rw [sortFields_perm_invariant l1 l2 h]

/-- Witness for C5 at the spec's `[a,b]` / `[b,a]` example. -/
theorem cache_key_order_independence_witness :
    detailsCacheKey "ChIJabc" ["b", "a"] = detailsCacheKey "ChIJabc" ["a", "b"] :=
  cache_key_order_independence "ChIJabc" ["b", "a"] ["a", "b"] (by decide)

/-! ### Field-mask fallback retry -/

/-- C1: for every details-shaped call (the single details action and
each batch-details item both run `detailsUpstream`): when the first
outbound GET fails with a field-expansion error (status 400 plus the
message pattern), the call is re-issued exactly once with the system
default field mask — the call list has exactly those two entries, so
no second retry happens even when the retry also fails, and a failing
retry is surfaced verbatim; when the original failure is any other
error, it is surfaced verbatim with no retry at all.  The last two
conjuncts tie the shared fetch logic to the batch item and the single
details handler. -/
theorem fallback_one_shot (orc : Nat → UpstreamResult) (rawId : String)
    (fields : List String) (s : Nat) (b : String)
    (h0 : orc 0 = .failure s b) :
    (isFieldMaskError s b = true →
        (detailsUpstream orc rawId fields).2
          = [.detailsGet rawId fields, .detailsGet rawId DEFAULT_FIELDS]
        ∧ ∀ s2 b2, orc 1 = .failure s2 b2 →
            (detailsUpstream orc rawId fields).1 = .error (s2, b2))
    ∧ (isFieldMaskError s b = false →
        (detailsUpstream orc rawId fields).2 = [.detailsGet rawId fields]
        ∧ (detailsUpstream orc rawId fields).1 = .error (s, b))
    ∧ (∀ pid, (batchItemStep orc pid fields none).2.1
        = (detailsUpstream orc (normalizeId pid) fields).2)
    ∧ (∀ cache now pid,
        (get cache (detailsCacheKey (normalizeId pid) fields) now).1 = none →
        (detailsHandlerCore cache now pid (some fields) orc).2.2
          = (detailsUpstream orc (normalizeId pid) fields).2) := by
  refine ⟨?_, ?_, ?_, ?_⟩
  · intro hfm
    unfold detailsUpstream
    rw [h0]
    simp only [hfm, if_true]
    refine ⟨?_, ?_⟩
    · cases h1 : orc 1 <;> simp
    · intro s2 b2 h1
      rw [h1]
  · intro hfm
    unfold detailsUpstream
    rw [h0]
    simp [hfm]
  · intro pid
    unfold batchItemStep
    cases hu : detailsUpstream orc (normalizeId pid) fields with
    | mk r calls =>
      cases r with
      | ok p => simp [hu]
      | error e => cases e with | mk s2 b2 => simp [hu]
  · intro cache now pid hmiss
    unfold detailsHandlerCore
    simp only [Option.getD]
    cases hget : get cache (detailsCacheKey (normalizeId pid) fields) now with
    | mk o c1 =>
      rw [hget] at hmiss
      simp only at hmiss
      subst hmiss
      cases hu : detailsUpstream orc (normalizeId pid) fields with
      | mk r calls =>
        cases r with
        | ok p => rfl
        | error e => cases e with | mk s2 b2 => rfl

/-- Body of the upstream field-expansion failure used by the C1
witness (the apostrophes are built explicitly). -/
def w1body : String :=
  String.mk ("Error expanding ".data ++ (apos :: "fields".data)
    ++ (apos :: " parameter: oops".data))

/-- Oracle for the C1 witness: the original call fails with the
field-mask error, the retry fails with a 403. -/
def w1orc : Nat → UpstreamResult
  | 0 => .failure 400 w1body
  | _ => .failure 403 "denied"

/-- Witness for C1: the fallback retry is issued exactly once with the
default mask and the failing retry is surfaced verbatim. -/
theorem fallback_one_shot_witness :
    (detailsUpstream w1orc "P" ["a"]).2
      = [.detailsGet "P" ["a"], .detailsGet "P" DEFAULT_FIELDS]
    ∧ (detailsUpstream w1orc "P" ["a"]).1 = .error (403, "denied") := by
  have h := fallback_one_shot w1orc "P" ["a"] 400 w1body rfl
  have hfm : isFieldMaskError 400 w1body = true := by decide
  exact ⟨(h.1 hfm).1, (h.1 hfm).2 403 "denied" rfl⟩

/-! ### Dispatcher validation order -/

/-- C7: every non-preflight request whose action is outside the
allow-list is answered 400 `invalid_action` with no upstream call, for
every credential and environment — the operation-name check runs
before any credential check. -/
theorem invalid_action_rejected (env : Env) (now : Nat) (cache : Cache Payload)
    (req : Request) (orc : String → Nat → UpstreamResult) (so : UpstreamResult)
    (hm : req.method ≠ "OPTIONS") (ha : ALLOWED.contains req.action = false) :
    handler env now cache req orc so
      = (⟨400, some (.err "invalid_action")⟩, cache, []) := by
  have hnotmem : req.action ∉ ALLOWED := by simpa using ha
  unfold handler
  rw [if_neg hm]
  simp [hnotmem]

/-- Witness for C7: `deletePlace` is rejected even with a valid
credential. -/
theorem invalid_action_rejected_witness :
    handler ⟨some "s", some "g"⟩ 0 []
        ⟨"POST", "deletePlace", some "s", ⟨none, none, none, none, none, none, none⟩⟩
        (fun _ _ => .failure 500 "x") (.failure 500 "x")
      = (⟨400, some (.err "invalid_action")⟩, [], []) :=
  invalid_action_rejected ⟨some "s", some "g"⟩ 0 []
    ⟨"POST", "deletePlace", some "s", ⟨none, none, none, none, none, none, none⟩⟩
    (fun _ _ => .failure 500 "x") (.failure 500 "x") (by decide) (by decide)

/-- C8: every non-preflight request with an allowed action whose
`x-gateway-key` header is wrong or missing, or served while the shared
secret is unset (or empty, which JS treats as falsy), is answered 401
`unauthorized` and issues zero upstream calls. -/
theorem unauthorized_rejected (env : Env) (now : Nat) (cache : Cache Payload)
    (req : Request) (orc : String → Nat → UpstreamResult) (so : UpstreamResult)
    (hm : req.method ≠ "OPTIONS") (ha : ALLOWED.contains req.action = true)
    (hauth : envTruthy env.gatewayToken = false ∨ req.gatewayKey ≠ env.gatewayToken) :
    handler env now cache req orc so
      = (⟨401, some (.err "unauthorized")⟩, cache, []) := by
  have hfalse : authOk env req = false := by
    unfold authOk
    cases ht : env.gatewayToken with
    | none => rfl
    | some t =>
      rcases hauth with h | h
      · rw [ht] at h
        unfold envTruthy at h
        simp only [Bool.not_eq_eq_eq_not, Bool.not_false] at h
        simp [h]
      · rw [ht] at h
        have hk : (req.gatewayKey == some t) = false := by
          cases hgk : req.gatewayKey with
          | none => rfl
          | some g =>
            rw [hgk] at h
            have : ¬g = t := fun hgt => h (by rw [hgt])
            simp [this]
        simp [hk]
  have hmem : req.action ∈ ALLOWED := by simpa using ha
  unfold handler
  rw [if_neg hm]
  simp [hmem, hfalse]

/-- Witness for C8: an allowed action with a wrong key is rejected. -/
theorem unauthorized_rejected_witness :
    handler ⟨some "s", some "g"⟩ 0 []
        ⟨"POST", "details", some "bad", ⟨none, none, none, none, none, none, none⟩⟩
        (fun _ _ => .failure 500 "x") (.failure 500 "x")
      = (⟨401, some (.err "unauthorized")⟩, [], []) :=
  unauthorized_rejected ⟨some "s", some "g"⟩ 0 []
    ⟨"POST", "details", some "bad", ⟨none, none, none, none, none, none, none⟩⟩
    (fun _ _ => .failure 500 "x") (.failure 500 "x") (by decide) (by decide)
    (Or.inr (by decide))

/-- C9: an authenticated `batchDetails` request with more than 50
identifiers is answered 400 `too_many_placeIds_max_50` with zero
upstream calls and an untouched cache, so no per-item work begins; an
absent, non-array or empty `placeIds` is answered 400
`placeIds_required`, likewise with zero upstream calls. -/
theorem batch_guard_rejected (env : Env) (now : Nat) (cache : Cache Payload)
    (req : Request) (orc : String → Nat → UpstreamResult) (so : UpstreamResult)
    (hm : req.method ≠ "OPTIONS") (ha : req.action = "batchDetails")
    (hauth : authOk env req = true) (hg : envTruthy env.googleApiKey = true) :
    (∀ pids, req.body.placeIds = some pids → 50 < pids.length →
        handler env now cache req orc so
          = (⟨400, some (.err "too_many_placeIds_max_50")⟩, cache, []))
    ∧ (req.body.placeIds = none ∨ req.body.placeIds = some [] →
        handler env now cache req orc so
          = (⟨400, some (.err "placeIds_required")⟩, cache, [])) := by
  have hbm : ("batchDetails" : String) ∈ ALLOWED := by decide
  constructor
  · intro pids hp hlen
    have hne : pids ≠ [] := by
      intro he
      rw [he] at hlen
      simp at hlen
    unfold handler
    rw [if_neg hm]
    simp [ha, hbm, hauth, hg, hp, hne, hlen]
  · intro hp
    unfold handler
    rw [if_neg hm]
    rcases hp with hp | hp
    · simp [ha, hbm, hauth, hg, hp]
    · simp [ha, hbm, hauth, hg, hp]

/-- Witness for C9: 51 identifiers are rejected before any per-item
work, and an empty list is rejected with `placeIds_required`. -/
theorem batch_guard_rejected_witness :
    handler ⟨some "s", some "g"⟩ 0 []
        ⟨"POST", "batchDetails", some "s",
          ⟨some (List.replicate 51 "P"), none, none, none, none, none, none⟩⟩
        (fun _ _ => .failure 500 "x") (.failure 500 "x")
      = (⟨400, some (.err "too_many_placeIds_max_50")⟩, [], [])
    ∧ handler ⟨some "s", some "g"⟩ 0 []
        ⟨"POST", "batchDetails", some "s",
          ⟨some [], none, none, none, none, none, none⟩⟩
        (fun _ _ => .failure 500 "x") (.failure 500 "x")
      = (⟨400, some (.err "placeIds_required")⟩, [], []) :=
  ⟨(batch_guard_rejected ⟨some "s", some "g"⟩ 0 []
      ⟨"POST", "batchDetails", some "s",
        ⟨some (List.replicate 51 "P"), none, none, none, none, none, none⟩⟩
      (fun _ _ => .failure 500 "x") (.failure 500 "x") (by decide) rfl (by decide)
      (by decide)).1 (List.replicate 51 "P") rfl (by decide),
   (batch_guard_rejected ⟨some "s", some "g"⟩ 0 []
      ⟨"POST", "batchDetails", some "s",
        ⟨some [], none, none, none, none, none, none⟩⟩
      (fun _ _ => .failure 500 "x") (.failure 500 "x") (by decide) rfl (by decide)
      (by decide)).2 (Or.inr rfl)⟩

/-! ### Batch fan-out -/

theorem detailsUpstream_other (orc : Nat → UpstreamResult) (rid : String)
    (fields : List String) (s : Nat) (b : String) (h0 : orc 0 = .failure s b)
    (hfm : isFieldMaskError s b = false) :
    detailsUpstream orc rid fields = (.error (s, b), [.detailsGet rid fields]) := by
  unfold detailsUpstream
  rw [h0]
  simp [hfm]

theorem detailsUpstream_fm_ok (orc : Nat → UpstreamResult) (rid : String)
    (fields : List String) (s : Nat) (b : String) (p : Payload)
    (h0 : orc 0 = .failure s b) (hfm : isFieldMaskError s b = true)
    (h1 : orc 1 = .success p) :
    detailsUpstream orc rid fields
      = (.ok p, [.detailsGet rid fields, .detailsGet rid DEFAULT_FIELDS]) := by
  unfold detailsUpstream
  rw [h0]
  simp [hfm]
  rw [h1]

theorem runBatchGets_length (fields : List String) (now : Nat) :
    ∀ (c : Cache Payload) (pids : List String),
      (runBatchGets fields now c pids).1.length = pids.length := by
  intro c pids
  induction pids generalizing c with
  | nil => rfl
  | cons pid rest ih => simp [runBatchGets, ih]

theorem runBatchGets_map_fst (fields : List String) (now : Nat) :
    ∀ (c : Cache Payload) (pids : List String),
      (runBatchGets fields now c pids).1.map Prod.fst = pids := by
  intro c pids
  induction pids generalizing c with
  | nil => rfl
  | cons pid rest ih => simp [runBatchGets, ih]

/-- C6: a `batchDetails` request over 1-50 identifiers produces a 200
response holding exactly one per-item outcome per identifier, each a
success entry or an error entry.  Cache probes all run before any
upstream response (so they are independent of the oracle), every
response entry is a function of its own identifier's probe and oracle
alone, and an identifier whose upstream call fails with a non-2xx,
non-field-mask error contributes its error entry without preventing
sibling entries or turning the batch into a thrown error.  The last
conjunct ties the dispatcher to this batch core. -/
theorem batch_isolation (cache : Cache Payload) (now : Nat) (pids : List String)
    (fields : List String) (orc : String → Nat → UpstreamResult)
    (h1 : 1 ≤ pids.length) (h2 : pids.length ≤ 50) :
    ∃ rs : List ItemResult,
      (batchCore cache now pids fields orc).1 = ⟨200, some (.batchResults rs)⟩
      ∧ rs.length = pids.length
      ∧ (∀ r ∈ rs, (∃ pid d cf, r = .success pid d cf)
          ∨ (∃ pid st b, r = .failure pid st b))
      ∧ (∀ i, rs.get? i = ((runBatchGets fields now cache pids).1.get? i).map
            (fun ph => (batchItemStep (orc (normalizeId ph.1)) ph.1 fields ph.2).1))
      ∧ (runBatchGets fields now cache pids).1.map Prod.fst = pids
      ∧ (∀ i pid probe s b,
          (runBatchGets fields now cache pids).1.get? i = some (pid, probe) →
          probe = none → orc (normalizeId pid) 0 = .failure s b →
          isFieldMaskError s b = false →
          rs.get? i = some (.failure (normalizeId pid) s b))
      ∧ (∀ (env : Env) (req : Request) (so : UpstreamResult),
          req.method ≠ "OPTIONS" → req.action = "batchDetails" →
          authOk env req = true → envTruthy env.googleApiKey = true →
          req.body.placeIds = some pids → req.body.fields = some fields →
          handler env now cache req orc so = batchCore cache now pids fields orc) := by
  refine ⟨_, rfl, ?_, ?_, ?_, runBatchGets_map_fst fields now cache pids, ?_, ?_⟩
  · simp [runBatchGets_length]
  · intro r hr
    cases r with
    | success pid d cf => exact Or.inl ⟨pid, d, cf, rfl⟩
    | failure pid st b => exact Or.inr ⟨pid, st, b, rfl⟩
  · intro i
    simp only [List.get?_map, Option.map_map]
    rfl
  · intro i pid probe s b hpe hpn h0 hfm
    subst hpn
    have hstep : (batchItemStep (orc (normalizeId pid)) pid fields none).1
        = .failure (normalizeId pid) s b := by
      have hu := detailsUpstream_other (orc (normalizeId pid)) (normalizeId pid)
        fields s b h0 hfm
      simp [batchItemStep, hu]
    simp only [List.get?_map]
    rw [hpe]
    simp [hstep]
  · intro env req so hm ha hauth hg hpids hfields
    have hbm : ("batchDetails" : String) ∈ ALLOWED := by decide
    have hne : pids ≠ [] := by
      intro he
      rw [he] at h1
      simp at h1
    have hle : ¬50 < pids.length := by omega
    unfold handler
    rw [if_neg hm]
    simp [ha, hbm, hauth, hg, hpids, hfields, hne, hle]

/-- Oracle for the C6 witness: the upstream fails for identifier `B`
only. -/
def w6orc : String → Nat → UpstreamResult :=
  fun pid _ => if pid = "B" then .failure 500 "boom" else .success "OK"

/-- Witness for C6 at the spec scenario: three identifiers, the
upstream failing for exactly one of them. -/
theorem batch_isolation_witness :
    ∃ rs : List ItemResult,
      (batchCore [] 0 ["A", "B", "C"] ["a"] w6orc).1 = ⟨200, some (.batchResults rs)⟩
      ∧ rs.length = (["A", "B", "C"] : List String).length
      ∧ (∀ r ∈ rs, (∃ pid d cf, r = .success pid d cf)
          ∨ (∃ pid st b, r = .failure pid st b))
      ∧ (∀ i, rs.get? i = ((runBatchGets ["a"] 0 [] ["A", "B", "C"]).1.get? i).map
            (fun ph => (batchItemStep (w6orc (normalizeId ph.1)) ph.1 ["a"] ph.2).1))
      ∧ (runBatchGets ["a"] 0 [] ["A", "B", "C"]).1.map Prod.fst = ["A", "B", "C"]
      ∧ (∀ i pid probe s b,
          (runBatchGets ["a"] 0 [] ["A", "B", "C"]).1.get? i = some (pid, probe) →
          probe = none → w6orc (normalizeId pid) 0 = .failure s b →
          isFieldMaskError s b = false →
          rs.get? i = some (.failure (normalizeId pid) s b))
      ∧ (∀ (env : Env) (req : Request) (so : UpstreamResult),
          req.method ≠ "OPTIONS" → req.action = "batchDetails" →
          authOk env req = true → envTruthy env.googleApiKey = true →
          req.body.placeIds = some ["A", "B", "C"] → req.body.fields = some ["a"] →
          handler env 0 [] req w6orc so = batchCore [] 0 ["A", "B", "C"] ["a"] w6orc) :=
  batch_isolation [] 0 ["A", "B", "C"] ["a"] w6orc (by decide) (by decide)

/-! ### Fallback success caches under the original key -/

/-- C10: when the fallback retry of a details lookup succeeds, the
payload fetched with the default mask is stored under the cache key
derived from the caller's original field list (the key is computed
before the fallback substitutes the mask), in both the single details
handler and a batch item; consequently a later identical request with
the original field list within the TTL is served from the cache with
that payload and `cached: true`, issuing no upstream call. -/
theorem fallback_caches_original_key (cache : Cache Payload) (now : Nat)
    (pid : String) (fields : List String) (orc : Nat → UpstreamResult)
    (p : Payload) (s : Nat) (b : String)
    (hmiss : (get cache (detailsCacheKey (normalizeId pid) fields) now).1 = none)
    (h0 : orc 0 = .failure s b) (hfm : isFieldMaskError s b = true)
    (h1 : orc 1 = .success p)
    (hsize : cache.length ≤ MAX_CACHE_SIZE) :
    detailsHandlerCore cache now pid (some fields) orc
      = (⟨200, some (.detailsData p false)⟩,
         put (get cache (detailsCacheKey (normalizeId pid) fields) now).2
           (detailsCacheKey (normalizeId pid) fields) p 3600 now,
         [.detailsGet (normalizeId pid) fields,
          .detailsGet (normalizeId pid) DEFAULT_FIELDS])
    ∧ (∀ now2 (orc2 : Nat → UpstreamResult), now2 ≤ now + 3600 * 1000 →
        detailsHandlerCore
          (put (get cache (detailsCacheKey (normalizeId pid) fields) now).2
            (detailsCacheKey (normalizeId pid) fields) p 3600 now)
          now2 pid (some fields) orc2
          = (⟨200, some (.detailsData p true)⟩,
             put (get cache (detailsCacheKey (normalizeId pid) fields) now).2
               (detailsCacheKey (normalizeId pid) fields) p 3600 now, []))
    ∧ batchItemStep orc pid fields none
        = (.success (normalizeId pid) p false,
           [.detailsGet (normalizeId pid) fields,
            .detailsGet (normalizeId pid) DEFAULT_FIELDS],
           some (detailsCacheKey (normalizeId pid) fields, p)) := by
  have hu := detailsUpstream_fm_ok orc (normalizeId pid) fields s b p h0 hfm h1
  have hc1size : (get cache (detailsCacheKey (normalizeId pid) fields) now).2.length
      ≤ MAX_CACHE_SIZE :=
    le_trans (get_snd_length_le cache (detailsCacheKey (normalizeId pid) fields) now) hsize
  refine ⟨?_, ?_, ?_⟩
  · unfold detailsHandlerCore
    cases hget : get cache (detailsCacheKey (normalizeId pid) fields) now with
    | mk o c1 =>
      rw [hget] at hmiss
      simp only at hmiss
      subst hmiss
      simp [hu, hget]
  · intro now2 orc2 hlate
    have hl := lookup_put_self
      (get cache (detailsCacheKey (normalizeId pid) fields) now).2
      (detailsCacheKey (normalizeId pid) fields) p 3600 now hc1size
    have hlive : ¬((⟨p, now + 3600 * 1000⟩ : CacheEntry Payload).until_ < now2) := by
      show ¬(now + 3600 * 1000 < now2)
      omega
    have hget2 := get_of_lookup_some_live
      (put (get cache (detailsCacheKey (normalizeId pid) fields) now).2
        (detailsCacheKey (normalizeId pid) fields) p 3600 now)
      (detailsCacheKey (normalizeId pid) fields) now2 ⟨p, now + 3600 * 1000⟩ hl hlive
    unfold detailsHandlerCore
    simp [hget2]
  · simp [batchItemStep, hu]

/-- Body of the field-expansion failure used by the C10 witness. -/
def w10body : String :=
  String.mk ("Error expanding ".data ++ (apos :: "fields".data)
    ++ (apos :: " parameter: nope".data))

/-- Oracle for the C10 witness: original call fails with the
field-mask error, retry succeeds. -/
def w10orc : Nat → UpstreamResult
  | 0 => .failure 400 w10body
  | _ => .success "PAYLOAD"

/-- Witness for C10 at a concrete prefixed identifier and unsorted
field list. -/
theorem fallback_caches_original_key_witness :
    detailsHandlerCore [] 100 "places/P1" (some ["b", "a"]) w10orc
      = (⟨200, some (.detailsData "PAYLOAD" false)⟩,
         put (get [] (detailsCacheKey (normalizeId "places/P1") ["b", "a"]) 100).2
           (detailsCacheKey (normalizeId "places/P1") ["b", "a"]) "PAYLOAD" 3600 100,
         [.detailsGet (normalizeId "places/P1") ["b", "a"],
          .detailsGet (normalizeId "places/P1") DEFAULT_FIELDS])
    ∧ (∀ now2 (orc2 : Nat → UpstreamResult), now2 ≤ 100 + 3600 * 1000 →
        detailsHandlerCore
          (put (get [] (detailsCacheKey (normalizeId "places/P1") ["b", "a"]) 100).2
            (detailsCacheKey (normalizeId "places/P1") ["b", "a"]) "PAYLOAD" 3600 100)
          now2 "places/P1" (some ["b", "a"]) orc2
          = (⟨200, some (.detailsData "PAYLOAD" true)⟩,
             put (get [] (detailsCacheKey (normalizeId "places/P1") ["b", "a"]) 100).2
               (detailsCacheKey (normalizeId "places/P1") ["b", "a"]) "PAYLOAD" 3600 100, []))
    ∧ batchItemStep w10orc "places/P1" ["b", "a"] none
        = (.success (normalizeId "places/P1") "PAYLOAD" false,
           [.detailsGet (normalizeId "places/P1") ["b", "a"],
            .detailsGet (normalizeId "places/P1") DEFAULT_FIELDS],
           some (detailsCacheKey (normalizeId "places/P1") ["b", "a"], "PAYLOAD")) :=
  fallback_caches_original_key [] 100 "places/P1" ["b", "a"] w10orc "PAYLOAD" 400
    w10body (by decide) rfl (by decide) rfl (by decide)

end Gateway
